import Mathlib

/-!
Verification development for the audio mixing / beat-synchronization pipeline
of the RAVE audio web application (source module: src/utils/audioMixing.ts).

The TypeScript source is shallowly embedded: JavaScript numbers are modelled
as exact rationals, Float32Array channel data as lists of rationals, and the
transcendental library functions Math.cos, Math.sqrt and the constant Math.PI
(whose exact double values never decide any of the verified properties) are
supplied as an explicit parameter record so that every definition stays
computable.
-/

/-- Parameter record standing for the JavaScript Math library functions used
by the source: Math.pi, Math.cos, Math.sqrt.  The pipeline code is embedded
uniformly over this record. -/
structure JsMath where
  pi : ℚ
  cos : ℚ → ℚ
  sqrt : ℚ → ℚ

/-- Shallow embedding of a Web Audio AudioBuffer: sample rate, frame count
(the AudioBuffer.length property), and per-channel sample data. -/
structure Buffer where
  sampleRate : ℚ
  length : ℕ
  channels : List (List ℚ)
  deriving DecidableEq, Repr

/-- AudioBuffer.getChannelData(ch): the channel data list (empty if out of range). -/
def Buffer.getChannelData (b : Buffer) (ch : ℕ) : List ℚ :=
  b.channels.getD ch []

/-- AudioBuffer.numberOfChannels. -/
def Buffer.numberOfChannels (b : Buffer) : ℕ :=
  b.channels.length

/-- Well-formedness invariant of a real AudioBuffer: every channel holds
exactly `length` frames. -/
def Buffer.wf (b : Buffer) : Prop :=
  ∀ c ∈ b.channels, c.length = b.length

instance (b : Buffer) : Decidable b.wf := by
  unfold Buffer.wf; infer_instance

/-- Embedding of the MixingParams interface of the source. -/
structure MixingParams where
  crossfadeTime : ℚ
  tempo : ℚ
  volume1 : ℚ
  volume2 : ℚ
  bassBoost : ℚ
  trebleBoost : ℚ
  reverbLevel : ℚ
  compressionRatio : ℚ
  deriving DecidableEq, Repr

/-- Embedding of the BeatDetectionResult interface of the source. -/
structure BeatDetectionResult where
  bpm : ℚ
  beats : List ℚ
  tempo : ℚ
  confidence : ℚ
  deriving DecidableEq, Repr

/-- JavaScript ToInteger as used by DataView.setInt16: truncation toward zero. -/
def truncQ (x : ℚ) : ℤ :=
  if 0 ≤ x then ⌊x⌋ else ⌈x⌉

/-- Math.max(-1, Math.min(1, x)) as in the WAV encoder. -/
def clampUnit (x : ℚ) : ℚ :=
  max (-1) (min 1 x)

namespace AudioMixer

/-! ### Beat detection (AudioMixer.detectBeats and helpers) -/

/-- Recursive kernel of highPassFilter: given the previous filtered value and
previous input sample, produce the remaining filtered values via
filtered[i] = alpha * (filtered[i-1] + data[i] - data[i-1]). -/
def hpGo (alpha : ℚ) : ℚ → ℚ → List ℚ → List ℚ
  | _, _, [] => []
  | prevF, prevD, x :: rest =>
    let f := alpha * (prevF + x - prevD)
    f :: hpGo alpha f x rest

/-- AudioMixer.highPassFilter: one-pole high-pass filter with
alpha = rc / (rc + dt), rc = 1 / (cutoffFreq * 2 * pi), dt = 1 / sampleRate,
filtered[0] = data[0]. -/
def highPassFilter (m : JsMath) (data : List ℚ) (cutoffFreq sampleRate : ℚ) : List ℚ :=
  let rc := 1 / (cutoffFreq * 2 * m.pi)
  let dt := 1 / sampleRate
  let alpha := rc / (rc + dt)
  match data with
  | [] => []
  | d0 :: rest => d0 :: hpGo alpha d0 d0 rest

/-- The hop size used throughout the source (512 samples). -/
def hopSize : ℕ := 512

/-- Onset strength of one frame (AudioMixer.calculateOnsetStrength loop body):
for frame ≥ 1, the square root of the mean of squared positive half-wave
rectified magnitude differences against the previous hop; frame 0 keeps the
Float32Array zero initialization. -/
def onsetAt (m : JsMath) (data : List ℚ) (frame : ℕ) : ℚ :=
  if frame = 0 then 0
  else
    let sum := (List.range hopSize).foldl
      (fun s i =>
        if frame * hopSize + i < data.length then
          s + (max 0 (|data.getD (frame * hopSize + i) 0| -
                      |data.getD ((frame - 1) * hopSize + i) 0|)) ^ 2
        else s) 0
    m.sqrt (sum / hopSize)

/-- AudioMixer.calculateOnsetStrength: one onset-strength value per
non-overlapping hop of 512 samples. -/
def calculateOnsetStrength (m : JsMath) (data : List ℚ) : List ℚ :=
  (List.range (data.length / hopSize)).map (onsetAt m data)

/-- The peak test of the findPeaks loop: strictly above the threshold and
strictly greater than both neighbors in the onset-strength sequence. -/
def isPeakAt (data : List ℚ) (threshold : ℚ) (i : ℕ) : Prop :=
  data.getD i 0 > threshold ∧ data.getD i 0 > data.getD (i - 1) 0 ∧
    data.getD i 0 > data.getD (i + 1) 0

instance (data : List ℚ) (threshold : ℚ) (i : ℕ) : Decidable (isPeakAt data threshold i) := by
  unfold isPeakAt; infer_instance

/-- One step of the findPeaks loop: push index i when it is a local maximum
above the threshold and at least 10 hops after the previously pushed peak. -/
def peakStep (data : List ℚ) (threshold : ℚ) (acc : List ℕ) (i : ℕ) : List ℕ :=
  if isPeakAt data threshold i then
    if acc = [] ∨ 10 ≤ i - acc.getLastD 0 then acc ++ [i] else acc
  else acc

/-- AudioMixer.findPeaks: scan indices 1 .. data.length - 2 in order. -/
def findPeaks (data : List ℚ) (threshold : ℚ) : List ℕ :=
  (List.range' 1 (data.length - 2)).foldl (peakStep data threshold) []

/-- Math.round (round half toward positive infinity). -/
def jsRound (x : ℚ) : ℤ := ⌊x + 1 / 2⌋

/-- AudioMixer.estimateBPM: mode of the inter-peak intervals rounded to the
nearest multiple of 10 hops, converted to BPM and clamped to [60, 200];
120 when fewer than two peaks were found or the modal interval is zero.
The JavaScript Map iterates keys in first-insertion order and the strict
comparison keeps the earliest key on ties, which the fold reproduces. -/
def estimateBPM (peaks : List ℕ) (sampleRate : ℚ) : ℚ :=
  if peaks.length < 2 then 120
  else
    let intervals : List ℤ := (peaks.zip peaks.tail).map (fun ab => (ab.2 : ℤ) - (ab.1 : ℤ))
    let rounded : List ℤ := intervals.map (fun iv => jsRound ((iv : ℚ) / 10) * 10)
    let keys : List ℤ := rounded.foldl (fun acc x => if x ∈ acc then acc else acc ++ [x]) []
    let best : ℤ × ℕ := keys.foldl
      (fun st k => if rounded.count k > st.2 then (k, rounded.count k) else st) (0, 0)
    let mostCommonInterval := best.1
    if mostCommonInterval = 0 then 120
    else
      let secondsPerInterval := ((mostCommonInterval : ℚ) * hopSize) / sampleRate
      let bpm := 60 / secondsPerInterval
      max 60 (min 200 bpm)

/-- AudioMixer.detectBeats: high-pass filter channel 0, compute onset
strength, pick peaks with threshold 0.3, estimate BPM, convert peaks to
time positions, confidence = min(peakCount / 100, 1). -/
def detectBeats (m : JsMath) (audioBuffer : Buffer) : BeatDetectionResult :=
  let channelData := audioBuffer.getChannelData 0
  let sampleRate := audioBuffer.sampleRate
  let filtered := highPassFilter m channelData 100 sampleRate
  let onsetStrength := calculateOnsetStrength m filtered
  let peaks := findPeaks onsetStrength (3 / 10)
  let bpm := estimateBPM peaks sampleRate
  let beats := peaks.map
    (fun (peak : ℕ) =>
      ((peak : ℚ) / sampleRate) * ((onsetStrength.length : ℚ) / (filtered.length : ℚ)))
  { bpm := bpm
    beats := beats
    tempo := bpm / 60
    confidence := min ((peaks.length : ℚ) / 100) 1 }

/-! ### Time stretching (AudioMixer.timeStretch) -/

/-- The grain window size used by timeStretch (2048 samples). -/
def windowSize : ℕ := 2048

/-- One grain of the timeStretch overlap-add loop at output position i:
read a Hann-windowed window of the source starting at floor(i * factor) and
accumulate it (scaled by 0.5) into the output, skipping windows that would
read past the source end and writes past the output end. -/
def grainAt (m : JsMath) (inputData : List ℚ) (factor : ℚ) (outputLength : ℕ)
    (i : ℕ) (out : List ℚ) : List ℚ :=
  let sourceIndex : ℤ := ⌊(i : ℚ) * factor⌋
  if sourceIndex + windowSize < (inputData.length : ℤ) then
    (List.range windowSize).foldl
      (fun acc (j : ℕ) =>
        let window := (1 / 2) * (1 - m.cos (2 * m.pi * (j : ℚ) / (windowSize : ℚ)))
        let sample := inputData.getD (sourceIndex.toNat + j) 0 * window
        if i + j < outputLength then acc.set (i + j) (acc.getD (i + j) 0 + sample * (1 / 2))
        else acc) out
  else out

/-- AudioMixer.timeStretch: identity below the 5% threshold, otherwise
granular overlap-add into a zero-initialized buffer of
floor(inputLength / factor) frames; only channel 0 is ever written. -/
def timeStretch (m : JsMath) (buffer : Buffer) (stretchFactor : ℚ) : Buffer :=
  if |stretchFactor - 1| < 1 / 20 then buffer
  else
    let inputData := buffer.getChannelData 0
    let outputLength := (⌊(inputData.length : ℚ) / stretchFactor⌋).toNat
    let iterations := (outputLength - windowSize + hopSize - 1) / hopSize
    let channel0 := (List.range iterations).foldl
      (fun out k => grainAt m inputData stretchFactor outputLength (k * hopSize) out)
      (List.replicate outputLength 0)
    { sampleRate := buffer.sampleRate
      length := outputLength
      channels := channel0 ::
        List.replicate (buffer.numberOfChannels - 1) (List.replicate outputLength 0) }

/-! ### Mixing (AudioMixer.mixTracks and helpers) -/

/-- AudioMixer.smoothStep: clamp to [0, 1], then t^2 * (3 - 2t). -/
def smoothStep (t : ℚ) : ℚ :=
  let t' := max 0 (min 1 t)
  t' * t' * (3 - 2 * t')

/-- Track 2 start position: 30% into track 1 (Math.floor(buffer1.length * 0.3)). -/
def track2StartOfLen (len1 : ℕ) : ℕ :=
  (⌊(len1 : ℚ) * (3 / 10)⌋).toNat

/-- The pair of gains applied to the two tracks at output index i:
inside the crossfade window (centered on track 2's start, extending
crossfadeSamples/2 to each side) the configured volumes are multiplied by
(1 - smoothstep) and smoothstep of the normalized fade position; outside it
they are the configured volumes. -/
def crossfadeGains (p : MixingParams) (crossfadeSamples : ℤ) (track2Start : ℕ) (i : ℕ) :
    ℚ × ℚ :=
  let crossfadeStart : ℚ := (track2Start : ℚ) - (crossfadeSamples : ℚ) / 2
  let crossfadeEnd : ℚ := (track2Start : ℚ) + (crossfadeSamples : ℚ) / 2
  if crossfadeStart ≤ (i : ℚ) ∧ (i : ℚ) ≤ crossfadeEnd then
    let fadePosition := ((i : ℚ) - crossfadeStart) / (crossfadeSamples : ℚ)
    let fadeFactor := smoothStep fadePosition
    (p.volume1 * (1 - fadeFactor), p.volume2 * fadeFactor)
  else (p.volume1, p.volume2)

/-- The sample contributed by track 2 at output index i (zero outside the
track's extent, which starts at track2Start). -/
def sampleTrack2 (t2Data : List ℚ) (track2Start : ℕ) (i : ℕ) : ℚ :=
  if track2Start ≤ i ∧ i - track2Start < t2Data.length then t2Data.getD (i - track2Start) 0
  else 0

/-- The (left, right) output pair at index i of the mixTracks loop body. -/
def mixSamplePair (p : MixingParams) (t1Data t2Data : List ℚ) (len1 : ℕ)
    (crossfadeSamples : ℤ) (i : ℕ) : ℚ × ℚ :=
  let track2Start := track2StartOfLen len1
  let sample1 := if i < t1Data.length then t1Data.getD i 0 else 0
  let sample2 := sampleTrack2 t2Data track2Start i
  let g := crossfadeGains p crossfadeSamples track2Start i
  let mixedSample := sample1 * g.1 + sample2 * g.2
  (mixedSample * (7 / 10) + sample1 * g.1 * (3 / 10),
   mixedSample * (7 / 10) + sample2 * g.2 * (3 / 10))

/-- AudioMixer.mixTracks: fill the two output channels of length outLen from
channel 0 of the two (already stretched) buffers. -/
def mixTracks (p : MixingParams) (mixerSampleRate : ℚ) (buffer1 buffer2 : Buffer)
    (outLen : ℕ) : List ℚ × List ℚ :=
  let crossfadeSamples : ℤ := ⌊p.crossfadeTime * mixerSampleRate⌋
  let t1Data := buffer1.getChannelData 0
  let t2Data := buffer2.getChannelData 0
  ((List.range outLen).map
      (fun i => (mixSamplePair p t1Data t2Data buffer1.length crossfadeSamples i).1),
   (List.range outLen).map
      (fun i => (mixSamplePair p t1Data t2Data buffer1.length crossfadeSamples i).2))

/-! ### Effects chain (AudioMixer.applyEQ / applyCompression / applyReverb /
normalize / applyEffects) -/

/-- Recursive kernel of applyEQ carrying the bass and treble accumulators. -/
def eqGo (bassGain trebleGain : ℚ) : ℚ → ℚ → List ℚ → List ℚ
  | _, _, [] => []
  | bassAccum, trebleAccum, x :: rest =>
    let bassAccum' := bassAccum + (1 / 100) * (x - bassAccum)
    let trebleAccum' := trebleAccum + (99 / 100) * (x - trebleAccum)
    let treble := x - trebleAccum'
    (bassAccum' * bassGain + treble * trebleGain + x * (1 / 2)) ::
      eqGo bassGain trebleGain bassAccum' trebleAccum' rest

/-- AudioMixer.applyEQ: single-pole bass tracker (alpha 0.01) and treble
residual (alpha 0.99) mixed with gains 1 + boost plus half the dry signal. -/
def applyEQ (data : List ℚ) (bassBoost trebleBoost : ℚ) : List ℚ :=
  eqGo (1 + bassBoost) (1 + trebleBoost) 0 0 data

/-- AudioMixer.applyCompression: above the 0.7 threshold compress the excess
by 1/ratio, then apply 1.2 makeup gain; below it makeup gain only. -/
def applyCompression (data : List ℚ) (ratio : ℚ) : List ℚ :=
  data.map (fun x =>
    if |x| > 7 / 10 then
      (x / |x|) * ((7 / 10) + (|x| - 7 / 10) / ratio) * (6 / 5)
    else x * (6 / 5))

/-- One feedback delay line of applyReverb: emits the wet contribution of
each input sample while updating the circular delay buffer. -/
def delayLineGo (wet feedback : ℚ) : List ℚ → ℕ → List ℚ → List ℚ
  | _, _, [] => []
  | buf, idx, x :: rest =>
    let delayed := buf.getD idx 0
    (delayed * wet) ::
      delayLineGo wet feedback (buf.set idx (x + delayed * feedback)) ((idx + 1) % buf.length) rest

/-- The wet contribution of one of the four delay lines of applyReverb:
a zero-initialized circular delay buffer of floor(delayTime * sampleRate)
samples fed with the input. -/
def reverbLine (mixerSampleRate wet delayTime : ℚ) (data : List ℚ) : List ℚ :=
  delayLineGo wet (3 / 10) (List.replicate ((⌊delayTime * mixerSampleRate⌋).toNat) 0) 0 data

/-- AudioMixer.applyReverb: four parallel delay lines (30/50/70/90 ms) with
0.3 feedback; wet gain level*0.3 split over the four lines; output is
dry * (1 - wet) + accumulated wet signal. -/
def applyReverb (mixerSampleRate : ℚ) (data : List ℚ) (level : ℚ) : List ℚ :=
  let wetGain := level * (3 / 10)
  let dryGain := 1 - wetGain
  let processed := ([3 / 100, 1 / 20, 7 / 100, 9 / 100] : List ℚ).foldl
    (fun acc delayTime =>
      List.zipWith (· + ·) acc (reverbLine mixerSampleRate (wetGain / 4) delayTime data))
    (List.replicate data.length 0)
  List.zipWith (fun d pr => d * dryGain + pr) data processed

/-- The peak absolute amplitude scanned by AudioMixer.normalize. -/
def peakAmplitude (data : List ℚ) : ℚ :=
  data.foldl (fun mx x => max mx |x|) 0

/-- AudioMixer.normalize: when the peak exceeds 1.0 scale everything by
0.95 / peak, otherwise leave the data untouched. -/
def normalize (data : List ℚ) : List ℚ :=
  let mx := peakAmplitude data
  if mx > 1 then data.map (fun x => x * ((19 / 20) / mx)) else data

/-- The per-channel composition EQ, then compression, then (when
reverbLevel > 0) reverb, then normalization, exactly as applyEffects runs the
stages on each of the two channels. -/
def processChannel (mixerSampleRate : ℚ) (p : MixingParams) (data : List ℚ) : List ℚ :=
  let d1 := applyEQ data p.bassBoost p.trebleBoost
  let d2 := applyCompression d1 p.compressionRatio
  let d3 := if p.reverbLevel > 0 then applyReverb mixerSampleRate d2 p.reverbLevel else d2
  normalize d3

/-- AudioMixer.applyEffects: run the effect stages on channels 0 and 1 of the
mixed buffer. -/
def applyEffects (mixerSampleRate : ℚ) (buffer : Buffer) (p : MixingParams) : Buffer :=
  { buffer with
    channels :=
      (buffer.channels.set 0 (processChannel mixerSampleRate p (buffer.getChannelData 0))).set 1
        (processChannel mixerSampleRate p (buffer.getChannelData 1)) }

/-! ### Mashup pipeline (AudioMixer.createMashup) -/

/-- AudioMixer.createMashup: detect beats of both tracks, stretch each by
targetTempo / detectedTempo, mix into a stereo buffer of length
max(stretched lengths) + floor(crossfadeTime * mixerSampleRate), then apply
the effects chain.  No input validation of any kind happens first. -/
def createMashup (m : JsMath) (mixerSampleRate : ℚ) (track1 track2 : Buffer)
    (p : MixingParams) : Buffer :=
  let beats1 := detectBeats m track1
  let beats2 := detectBeats m track2
  let adjustedTrack1 := timeStretch m track1 (p.tempo / beats1.tempo)
  let adjustedTrack2 := timeStretch m track2 (p.tempo / beats2.tempo)
  let outputLength : ℕ :=
    ((max adjustedTrack1.length adjustedTrack2.length : ℤ) +
      ⌊p.crossfadeTime * mixerSampleRate⌋).toNat
  let lr := mixTracks p mixerSampleRate adjustedTrack1 adjustedTrack2 outputLength
  applyEffects mixerSampleRate
    { sampleRate := mixerSampleRate, length := outputLength, channels := [lr.1, lr.2] } p

/-! ### PCM serialization (AudioMixer.audioBufferToWav) -/

/-- Quantization of one float sample to int16 as the WAV encoder performs it:
clamp to [-1, 1], scale by 0x7FFF, truncate toward zero (DataView.setInt16). -/
def encodeSample (x : ℚ) : ℤ :=
  truncQ (clampUnit x * 32767)

/-- The interleaved int16 sample stream of the WAV body. -/
def encodeSamples (b : Buffer) : List ℤ :=
  ((List.range b.length).map (fun i =>
    (List.range b.numberOfChannels).map (fun ch =>
      encodeSample ((b.getChannelData ch).getD i 0)))).flatten

/-- Little-endian bytes of an unsigned 16-bit value. -/
def u16le (n : ℕ) : List ℕ :=
  [n % 256, n / 256 % 256]

/-- Little-endian bytes of an unsigned 32-bit value. -/
def u32le (n : ℕ) : List ℕ :=
  [n % 256, n / 256 % 256, n / 65536 % 256, n / 16777216 % 256]

/-- Little-endian two's-complement bytes of an int16 value (setInt16 wraps
modulo 2^16). -/
def i16le (v : ℤ) : List ℕ :=
  u16le (v.emod 65536).toNat

/-- The 44-byte RIFF/WAVE header written by audioBufferToWav (string bytes
are the ASCII codes of RIFF, WAVE, fmt and data; setUint32 applies
JavaScript ToUint32 to the rational sample rate). -/
def wavHeader (b : Buffer) : List ℕ :=
  let len := b.length
  let nc := b.numberOfChannels
  let srInt := ((truncQ b.sampleRate).emod 4294967296).toNat
  let brInt := ((truncQ (b.sampleRate * nc * 2)).emod 4294967296).toNat
  [82, 73, 70, 70] ++ u32le (36 + len * nc * 2) ++
  [87, 65, 86, 69] ++ [102, 109, 116, 32] ++ u32le 16 ++
  u16le 1 ++ u16le nc ++ u32le srInt ++ u32le brInt ++
  u16le (nc * 2) ++ u16le 16 ++
  [100, 97, 116, 97] ++ u32le (len * nc * 2)

/-- AudioMixer.audioBufferToWav as a byte sequence: header followed by the
interleaved little-endian int16 samples. -/
def audioBufferToWav (b : Buffer) : List ℕ :=
  wavHeader b ++ ((encodeSamples b).map i16le).flatten

/-- Modelled from the spec: the PCM decoder is not part of the repository
(decoding is delegated to the browser), so per section 4.5 of the spec the
decode direction maps each interleaved int16 sample v of a channel back to
the float v / 32767, recovering frameCount = sampleCount / channelCount
frames per channel. -/
def decodeWav (sampleRate : ℚ) (numChannels : ℕ) (ints : List ℤ) : Buffer :=
  let frames := ints.length / numChannels
  { sampleRate := sampleRate
    length := frames
    channels := (List.range numChannels).map (fun ch =>
      (List.range frames).map (fun i => ((ints.getD (i * numChannels + ch) 0 : ℚ) / 32767))) }

end AudioMixer

open AudioMixer

/-! ### Concrete instances used to witness the verified statements -/

/-- Concrete stand-in for the JavaScript Math record, used to instantiate the
verified statements at executable points. -/
def jsMathModel : JsMath := { pi := 3, cos := fun _ => 0, sqrt := fun _ => 0 }

/-- A silent three-sample mono buffer. -/
def bufSilent : Buffer := { sampleRate := 44100, length := 3, channels := [[0, 0, 0]] }

/-- A four-sample silent mono track at 44100 Hz. -/
def trackA : Buffer := { sampleRate := 44100, length := 4, channels := [[0, 0, 0, 0]] }

/-- A four-sample silent mono track at 22050 Hz (sample rate mismatched with trackA). -/
def trackB : Buffer := { sampleRate := 22050, length := 4, channels := [[0, 0, 0, 0]] }

/-- As trackB but with a non-zero first sample. -/
def trackB' : Buffer := { sampleRate := 22050, length := 4, channels := [[1, 0, 0, 0]] }

/-- A stereo two-channel buffer agreeing with trackB on channel 0 but not on
channel 1. -/
def trackB2 : Buffer := { sampleRate := 22050, length := 4, channels := [[0, 0, 0, 0], [1, 2, 3, 4]] }

/-- As trackB2 but with different channel-1 content. -/
def trackB2' : Buffer := { sampleRate := 22050, length := 4, channels := [[0, 0, 0, 0], [5, 6, 7, 8]] }

/-- A one-sample silent mono track at 44100 Hz. -/
def trackA1 : Buffer := { sampleRate := 44100, length := 1, channels := [[0]] }

/-- A one-sample silent mono track at 22050 Hz (rate mismatched with trackA1). -/
def trackB1 : Buffer := { sampleRate := 22050, length := 1, channels := [[0]] }

/-- As trackB1 but holding a unit impulse. -/
def trackB1' : Buffer := { sampleRate := 22050, length := 1, channels := [[1]] }

/-- A one-sample mono buffer whose sample exceeds the unit range. -/
def bufLoud : Buffer := { sampleRate := 44100, length := 1, channels := [[2]] }

/-- Mixing parameters used by the concrete instantiations: one second of
crossfade, target tempo 2 beats per second, full volumes, flat EQ, no
reverb, unit compression ratio. -/
def paramsModel : MixingParams :=
  { crossfadeTime := 1, tempo := 2, volume1 := 1, volume2 := 1,
    bassBoost := 0, trebleBoost := 0, reverbLevel := 0, compressionRatio := 1 }

/-! ### General helper lemmas -/

lemma getD_zero_of_all_zero {l : List ℚ} (h : ∀ x ∈ l, x = 0) (i : ℕ) : l.getD i 0 = 0 := by
  rcases lt_or_le i l.length with hi | hi
  · rw [List.getD_eq_getElem _ _ hi]
    exact h _ (List.getElem_mem hi)
  · exact List.getD_eq_default _ _ hi

lemma foldl_fixed_of_step_id {α β : Type} (f : α → β → α) (h : ∀ s i, f s i = s) :
    ∀ (l : List β) (s : α), l.foldl f s = s := by
  intro l
  induction l with
  | nil => intro s; rfl
  | cons x xs ih => intro s; rw [List.foldl_cons, h]; exact ih s

/-! ### Silent input behaves as the documented fallback -/

lemma hpGo_all_zero (alpha : ℚ) :
    ∀ (l : List ℚ), (∀ x ∈ l, x = 0) → hpGo alpha 0 0 l = List.replicate l.length 0 := by
  intro l
  induction l with
  | nil => intro _; rfl
  | cons x xs ih =>
    intro h
    have hx : x = 0 := h x (by simp)
    subst hx
    have hz : alpha * (0 + 0 - 0) = 0 := by ring
    calc hpGo alpha 0 0 (0 :: xs)
        = (alpha * (0 + 0 - 0)) :: hpGo alpha (alpha * (0 + 0 - 0)) 0 xs := rfl
      _ = 0 :: hpGo alpha 0 0 xs := by rw [hz]
      _ = 0 :: List.replicate xs.length 0 := by
            rw [ih (fun z hz' => h z (by simp [hz']))]
      _ = List.replicate (0 :: xs).length 0 := rfl

lemma highPassFilter_all_zero (m : JsMath) (data : List ℚ) (cutoff sr : ℚ)
    (h : ∀ x ∈ data, x = 0) : ∀ y ∈ highPassFilter m data cutoff sr, y = 0 := by
  cases data with
  | nil => intro y hy; cases hy
  | cons d0 rest =>
    have hd0 : d0 = 0 := h d0 (by simp)
    subst hd0
    intro y hy
    have heq : highPassFilter m (0 :: rest) cutoff sr
        = 0 :: List.replicate rest.length 0 := by
      show 0 :: hpGo _ 0 0 rest = 0 :: List.replicate rest.length 0
      rw [hpGo_all_zero _ rest (fun z hz' => h z (by simp [hz']))]
    rw [heq] at hy
    rcases List.mem_cons.mp hy with hy | hy
    · exact hy
    · exact List.eq_of_mem_replicate hy

lemma onsetAt_all_zero (m : JsMath) (hs : m.sqrt 0 = 0) (data : List ℚ)
    (h : ∀ x ∈ data, x = 0) (frame : ℕ) : onsetAt m data frame = 0 := by
  unfold onsetAt
  rcases eq_or_ne frame 0 with h0 | h0
  · simp [h0]
  · rw [if_neg h0]
    have hsum : (List.range hopSize).foldl
        (fun s i =>
          if frame * hopSize + i < data.length then
            s + (max 0 (|data.getD (frame * hopSize + i) 0| -
                        |data.getD ((frame - 1) * hopSize + i) 0|)) ^ 2
          else s) 0 = 0 := by
      apply foldl_fixed_of_step_id
      intro s i
      rw [getD_zero_of_all_zero h, getD_zero_of_all_zero h]
      simp
    rw [hsum]
    simpa using hs

lemma calculateOnsetStrength_all_zero (m : JsMath) (hs : m.sqrt 0 = 0) (data : List ℚ)
    (h : ∀ x ∈ data, x = 0) : ∀ y ∈ calculateOnsetStrength m data, y = 0 := by
  intro y hy
  simp only [calculateOnsetStrength, List.mem_map] at hy
  obtain ⟨frame, _, rfl⟩ := hy
  exact onsetAt_all_zero m hs data h frame

lemma findPeaks_all_zero (data : List ℚ) (h : ∀ x ∈ data, x = 0) :
    findPeaks data (3 / 10) = [] := by
  unfold findPeaks
  apply foldl_fixed_of_step_id
  intro acc i
  unfold peakStep
  rw [if_neg]
  intro hc
  have h1 := hc.1
  rw [getD_zero_of_all_zero h i] at h1
  norm_num at h1

/-- C2: for every input buffer whose channel-0 samples are all zero,
detectBeats returns bpm = 120 and confidence = 0 (the embedding is a total
function, so no exception can be raised on such input). -/
theorem claim_C2_silent_fallback (m : JsMath) (b : Buffer)
    (hz : ∀ x ∈ b.getChannelData 0, x = 0) (hs : m.sqrt 0 = 0) :
    (detectBeats m b).bpm = 120 ∧ (detectBeats m b).confidence = 0 := by
  have hfilt := highPassFilter_all_zero m (b.getChannelData 0) 100 b.sampleRate hz
  have honset := calculateOnsetStrength_all_zero m hs _ hfilt
  have hpeaks := findPeaks_all_zero _ honset
  constructor
  · show estimateBPM (findPeaks (calculateOnsetStrength m
      (highPassFilter m (b.getChannelData 0) 100 b.sampleRate)) (3 / 10)) b.sampleRate = 120
    rw [hpeaks]
    rfl
  · show min (((findPeaks (calculateOnsetStrength m
      (highPassFilter m (b.getChannelData 0) 100 b.sampleRate)) (3 / 10)).length : ℚ) / 100) 1 = 0
    rw [hpeaks]
    norm_num

theorem claim_C2_witness :
    (∀ x ∈ bufSilent.getChannelData 0, x = 0) ∧ jsMathModel.sqrt 0 = 0 ∧
      (detectBeats jsMathModel bufSilent).bpm = 120 ∧
      (detectBeats jsMathModel bufSilent).confidence = 0 :=
  ⟨by decide, rfl, claim_C2_silent_fallback jsMathModel bufSilent (by decide) rfl⟩

/-! ### BPM range and confidence formula -/

lemma estimateBPM_cases (peaks : List ℕ) (sr : ℚ) :
    estimateBPM peaks sr = 120 ∨
      ∃ x : ℚ, estimateBPM peaks sr = max 60 (min 200 x) := by
  unfold estimateBPM
  split
  · exact Or.inl rfl
  · dsimp only
    split
    · exact Or.inl rfl
    · exact Or.inr ⟨_, rfl⟩

lemma estimateBPM_bounds (peaks : List ℕ) (sr : ℚ) :
    60 ≤ estimateBPM peaks sr ∧ estimateBPM peaks sr ≤ 200 := by
  rcases estimateBPM_cases peaks sr with h | ⟨x, h⟩ <;> rw [h]
  · norm_num
  · exact ⟨le_max_left _ _, max_le (by norm_num) (min_le_left _ _)⟩

/-- C3: for every input buffer the detected bpm lies in [60, 200], equals the
120 default when fewer than two peaks are found, and the confidence equals
min(peakCount / 100, 1), hence lies in [0, 1]. -/
theorem claim_C3_bpm_confidence_range (m : JsMath) (b : Buffer) :
    let peaks := findPeaks (calculateOnsetStrength m
      (highPassFilter m (b.getChannelData 0) 100 b.sampleRate)) (3 / 10)
    60 ≤ (detectBeats m b).bpm ∧ (detectBeats m b).bpm ≤ 200 ∧
      (peaks.length < 2 → (detectBeats m b).bpm = 120) ∧
      (detectBeats m b).confidence = min ((peaks.length : ℚ) / 100) 1 ∧
      0 ≤ (detectBeats m b).confidence ∧ (detectBeats m b).confidence ≤ 1 := by
  intro peaks
  have hbpm : (detectBeats m b).bpm = estimateBPM peaks b.sampleRate := rfl
  have hconf : (detectBeats m b).confidence = min ((peaks.length : ℚ) / 100) 1 := rfl
  refine ⟨?_, ?_, ?_, hconf, ?_, ?_⟩
  · rw [hbpm]; exact (estimateBPM_bounds peaks b.sampleRate).1
  · rw [hbpm]; exact (estimateBPM_bounds peaks b.sampleRate).2
  · intro hlt
    rw [hbpm]
    unfold estimateBPM
    rw [if_pos hlt]
  · rw [hconf]
    exact le_min (by positivity) (by norm_num)
  · rw [hconf]
    exact min_le_right _ _

theorem claim_C3_witness :
    ((findPeaks (calculateOnsetStrength jsMathModel
        (highPassFilter jsMathModel (bufSilent.getChannelData 0) 100 bufSilent.sampleRate))
        (3 / 10)).length < 2) ∧
      (detectBeats jsMathModel bufSilent).bpm = 120 ∧
      60 ≤ (detectBeats jsMathModel bufSilent).bpm := by
  have h := claim_C3_bpm_confidence_range jsMathModel bufSilent
  exact ⟨by decide, h.2.2.1 (by decide), h.1⟩

/-! ### Structure of the peak list and the beat positions -/

lemma getLast?_mem_self {α : Type} {l : List α} {a : α} (h : l.getLast? = some a) : a ∈ l := by
  obtain ⟨hne, rfl⟩ :=
    List.mem_getLast?_eq_getLast (show a ∈ l.getLast? from Option.mem_def.mpr h)
  exact List.getLast_mem hne

lemma peakStep_foldl_invariant (data : List ℚ) (thr : ℚ) :
    ∀ (l acc : List ℕ),
      l.Pairwise (· < ·) →
      (∀ p ∈ acc, isPeakAt data thr p) →
      List.Chain' (fun a c => a + 10 ≤ c) acc →
      (∀ p ∈ acc, ∀ i ∈ l, p < i) →
      (∀ p ∈ l.foldl (peakStep data thr) acc,
          isPeakAt data thr p ∧ (p ∈ acc ∨ p ∈ l)) ∧
        List.Chain' (fun a c => a + 10 ≤ c) (l.foldl (peakStep data thr) acc) := by
  intro l
  induction l with
  | nil =>
    intro acc _ hpk hch _
    exact ⟨fun p hp => ⟨hpk p hp, Or.inl hp⟩, hch⟩
  | cons i l ih =>
    intro acc hpw hpk hch hlt
    rw [List.foldl_cons]
    have hihead : ∀ j ∈ l, i < j := (List.pairwise_cons.mp hpw).1
    have hstep : (∀ p ∈ peakStep data thr acc i,
        isPeakAt data thr p ∧ (p ∈ acc ∨ p = i)) ∧
        List.Chain' (fun a c => a + 10 ≤ c) (peakStep data thr acc i) := by
      unfold peakStep
      split
      next hpk_i =>
        split
        next hcond =>
          refine ⟨?_, ?_⟩
          · intro p hp
            rcases List.mem_append.mp hp with hp | hp
            · exact ⟨hpk p hp, Or.inl hp⟩
            · have : p = i := by simpa using hp
              subst this
              exact ⟨hpk_i, Or.inr rfl⟩
          · rw [List.chain'_append]
            refine ⟨hch, by simp, ?_⟩
            intro x hx y hy
            have hyi : i = y := by simpa using hy
            have hxmem : x ∈ acc := getLast?_mem_self (Option.mem_def.mp hx)
            have hanil : acc ≠ [] := List.ne_nil_of_mem hxmem
            rcases hcond with hcond | hcond
            · exact absurd hcond hanil
            · have hgl : acc.getLastD 0 = x := by
                rw [List.getLastD_eq_getLast?, Option.mem_def.mp hx]
                rfl
              rw [hgl] at hcond
              have hlt' : x < i := hlt x hxmem i (by simp)
              omega
        next => exact ⟨fun p hp => ⟨hpk p hp, Or.inl hp⟩, hch⟩
      next => exact ⟨fun p hp => ⟨hpk p hp, Or.inl hp⟩, hch⟩
    have hside : ∀ p ∈ peakStep data thr acc i, ∀ j ∈ l, p < j := by
      intro p hp j hj
      rcases (hstep.1 p hp).2 with hmem | rfl
      · exact hlt p hmem j (by simp [hj])
      · exact hihead j hj
    have hres := ih (peakStep data thr acc i) hpw.of_cons
      (fun p hp => (hstep.1 p hp).1) hstep.2 hside
    refine ⟨?_, hres.2⟩
    intro p hp
    obtain ⟨hpkp, hmem⟩ := hres.1 p hp
    refine ⟨hpkp, ?_⟩
    rcases hmem with hmem | hmem
    · rcases (hstep.1 p hmem).2 with h' | h'
      · exact Or.inl h'
      · exact Or.inr (by simp [h'])
    · exact Or.inr (by simp [hmem])

lemma findPeaks_spec (data : List ℚ) (thr : ℚ) :
    (∀ p ∈ findPeaks data thr, isPeakAt data thr p ∧ 1 ≤ p ∧ p + 1 < data.length) ∧
      List.Chain' (fun a c => a + 10 ≤ c) (findPeaks data thr) := by
  have h := peakStep_foldl_invariant data thr (List.range' 1 (data.length - 2)) []
    (List.pairwise_lt_range' 1 (data.length - 2)) (by simp) (by simp) (by simp)
  refine ⟨?_, h.2⟩
  intro p hp
  obtain ⟨hpk, hmem⟩ := h.1 p hp
  rcases hmem with hmem | hmem
  · cases hmem
  · have hb := List.mem_range'_1.mp hmem
    exact ⟨hpk, hb.1, by omega⟩

lemma chain'_imp_mem {α : Type} {R S : α → α → Prop} :
    ∀ {l : List α}, List.Chain' R l →
      (∀ a c, a ∈ l → c ∈ l → R a c → S a c) → List.Chain' S l := by
  intro l
  induction l with
  | nil => intro _ _; simp
  | cons a l ih =>
    intro h himp
    cases l with
    | nil => simp
    | cons c l' =>
      rw [List.chain'_cons] at h ⊢
      refine ⟨himp a c (by simp) (by simp) h.1, ih h.2 ?_⟩
      intro x y hx hy hr
      exact himp x y (by simp [hx]) (by simp [hy]) hr

lemma calculateOnsetStrength_length (m : JsMath) (data : List ℚ) :
    (calculateOnsetStrength m data).length = data.length / hopSize := by
  simp [calculateOnsetStrength]

/-- C4: the underlying peak list of detectBeats is an ascending sequence with
consecutive peaks at least 10 hops apart, every peak exceeds the 0.3
threshold and both of its neighbors in the onset-strength sequence, and the
returned beat positions are strictly ascending. -/
theorem claim_C4_beat_positions (m : JsMath) (b : Buffer) (hsr : 0 < b.sampleRate) :
    List.Chain' (· < ·) (detectBeats m b).beats ∧
      List.Chain' (fun a c => a + 10 ≤ c)
        (findPeaks (calculateOnsetStrength m
          (highPassFilter m (b.getChannelData 0) 100 b.sampleRate)) (3 / 10)) ∧
      (∀ p ∈ findPeaks (calculateOnsetStrength m
          (highPassFilter m (b.getChannelData 0) 100 b.sampleRate)) (3 / 10),
        let onsets := calculateOnsetStrength m
          (highPassFilter m (b.getChannelData 0) 100 b.sampleRate)
        1 ≤ p ∧ p + 1 < onsets.length ∧ onsets.getD p 0 > 3 / 10 ∧
          onsets.getD p 0 > onsets.getD (p - 1) 0 ∧
          onsets.getD p 0 > onsets.getD (p + 1) 0) := by
  set filtered := highPassFilter m (b.getChannelData 0) 100 b.sampleRate with hfiltered
  set onsets := calculateOnsetStrength m filtered with honsets
  have hspec := findPeaks_spec onsets (3 / 10)
  refine ⟨?_, hspec.2, ?_⟩
  · have hbeats : (detectBeats m b).beats =
        (findPeaks onsets (3 / 10)).map
          (fun (peak : ℕ) => ((peak : ℚ) / b.sampleRate) *
            ((onsets.length : ℚ) / (filtered.length : ℚ))) := rfl
    rw [hbeats, List.chain'_map]
    apply chain'_imp_mem hspec.2
    intro a c ha _ hac
    obtain ⟨-, -, hbound⟩ := hspec.1 a ha
    have honpos : 0 < onsets.length := by omega
    have hfpos : 0 < filtered.length := by
      have := calculateOnsetStrength_length m filtered
      rw [← honsets] at this
      rw [this] at honpos
      exact Nat.pos_of_ne_zero (by
        intro h0
        rw [h0] at honpos
        simp [hopSize] at honpos)
    have hk : (0 : ℚ) < ((onsets.length : ℚ) / (filtered.length : ℚ)) / b.sampleRate := by
      apply div_pos (div_pos _ _) hsr
      · exact_mod_cast honpos
      · exact_mod_cast hfpos
    have hac' : (a : ℚ) < (c : ℚ) := by exact_mod_cast (by omega : a < c)
    calc ((a : ℚ) / b.sampleRate) * ((onsets.length : ℚ) / (filtered.length : ℚ))
        = (a : ℚ) * (((onsets.length : ℚ) / (filtered.length : ℚ)) / b.sampleRate) := by ring
      _ < (c : ℚ) * (((onsets.length : ℚ) / (filtered.length : ℚ)) / b.sampleRate) :=
          mul_lt_mul_of_pos_right hac' hk
      _ = ((c : ℚ) / b.sampleRate) * ((onsets.length : ℚ) / (filtered.length : ℚ)) := by ring
  · intro p hp
    obtain ⟨hpk, h1, h2⟩ := hspec.1 p hp
    exact ⟨h1, h2, hpk.1, hpk.2.1, hpk.2.2⟩

theorem claim_C4_witness :
    0 < bufSilent.sampleRate ∧
      List.Chain' (· < ·) (detectBeats jsMathModel bufSilent).beats :=
  ⟨by norm_num [bufSilent],
   (claim_C4_beat_positions jsMathModel bufSilent (by norm_num [bufSilent])).1⟩

/-! ### Time stretch length contract -/

lemma foldl_length_preserved {β : Type} (f : List ℚ → β → List ℚ)
    (h : ∀ s i, (f s i).length = s.length) :
    ∀ (l : List β) (s : List ℚ), (l.foldl f s).length = s.length := by
  intro l
  induction l with
  | nil => intro s; rfl
  | cons x xs ih =>
    intro s
    rw [List.foldl_cons, ih, h]

lemma grainAt_length (m : JsMath) (inputData : List ℚ) (factor : ℚ) (outputLength i : ℕ)
    (out : List ℚ) : (grainAt m inputData factor outputLength i out).length = out.length := by
  unfold grainAt
  dsimp only
  split
  · apply foldl_length_preserved
    intro s j
    dsimp only
    split
    · exact List.length_set _ _ _
    · rfl
  · rfl

lemma timeStretch_stretch_eq (m : JsMath) (b : Buffer) (factor : ℚ)
    (h : ¬ |factor - 1| < 1 / 20) :
    timeStretch m b factor =
      { sampleRate := b.sampleRate
        length := (⌊((b.getChannelData 0).length : ℚ) / factor⌋).toNat
        channels :=
          ((List.range ((((⌊((b.getChannelData 0).length : ℚ) / factor⌋).toNat) -
              windowSize + hopSize - 1) / hopSize)).foldl
            (fun out k => grainAt m (b.getChannelData 0) factor
              ((⌊((b.getChannelData 0).length : ℚ) / factor⌋).toNat) (k * hopSize) out)
            (List.replicate ((⌊((b.getChannelData 0).length : ℚ) / factor⌋).toNat) 0)) ::
          List.replicate (b.numberOfChannels - 1)
            (List.replicate ((⌊((b.getChannelData 0).length : ℚ) / factor⌋).toNat) 0) } := by
  unfold timeStretch
  rw [if_neg h]

/-- C5: below the 5% threshold timeStretch returns its input unchanged; at or
above it the produced buffer has floor(inputLength / factor) frames in every
channel, and in particular stretching by 2 halves the length up to rounding. -/
theorem claim_C5_timestretch (m : JsMath) (b : Buffer) (factor : ℚ) (hf : 0 < factor) :
    (|factor - 1| < 1 / 20 → timeStretch m b factor = b) ∧
      (1 / 20 ≤ |factor - 1| →
        ((timeStretch m b factor).length : ℤ) =
            ⌊((b.getChannelData 0).length : ℚ) / factor⌋ ∧
          ∀ c ∈ (timeStretch m b factor).channels,
            c.length = (timeStretch m b factor).length) ∧
      (timeStretch m b 2).length = (b.getChannelData 0).length / 2 := by
  refine ⟨?_, ?_, ?_⟩
  · intro h
    unfold timeStretch
    rw [if_pos h]
  · intro h
    have h' : ¬ |factor - 1| < 1 / 20 := not_lt.mpr h
    rw [timeStretch_stretch_eq m b factor h']
    constructor
    · exact Int.toNat_of_nonneg (Int.floor_nonneg.mpr (by positivity))
    · intro c hc
      rcases List.mem_cons.mp hc with rfl | hc
      · rw [foldl_length_preserved _ (fun s k => grainAt_length _ _ _ _ _ s)]
        exact List.length_replicate _ _
      · rw [List.eq_of_mem_replicate hc]
        exact List.length_replicate _ _
  · have h2 : ¬ |(2 : ℚ) - 1| < 1 / 20 := by norm_num
    rw [timeStretch_stretch_eq m b 2 h2]
    show (⌊((b.getChannelData 0).length : ℚ) / 2⌋).toNat = (b.getChannelData 0).length / 2
    have : (((b.getChannelData 0).length : ℚ)) / 2 =
        (((b.getChannelData 0).length : ℤ) : ℚ) / ((2 : ℕ) : ℚ) := by norm_num
    rw [this, Rat.floor_intCast_div_natCast]
    omega

theorem claim_C5_witness :
    (0 : ℚ) < 2 ∧ (timeStretch jsMathModel trackA 2).length = 2 := by
  refine ⟨by norm_num, ?_⟩
  have h := (claim_C5_timestretch jsMathModel trackA 2 (by norm_num)).2.2
  rw [h]
  decide

/-! ### Crossfade gain contract -/

/-- C6: inside the crossfade window the gains are volume1 * (1 - f) and
volume2 * f with f the smoothstep t^2 (3 - 2t) of the normalized fade
position, and at track 2's start frame (the exact midpoint of the window)
both fade factors are exactly one half. -/
theorem claim_C6_crossfade_midpoint (p : MixingParams) (cs : ℤ) (t2s : ℕ) (hcs : 0 < cs) :
    (∀ t : ℚ, 0 ≤ t → t ≤ 1 → smoothStep t = t * t * (3 - 2 * t)) ∧
      (∀ i : ℕ, ((t2s : ℚ) - (cs : ℚ) / 2) ≤ (i : ℚ) → (i : ℚ) ≤ (t2s : ℚ) + (cs : ℚ) / 2 →
        crossfadeGains p cs t2s i =
          (p.volume1 * (1 - smoothStep (((i : ℚ) - ((t2s : ℚ) - (cs : ℚ) / 2)) / (cs : ℚ))),
           p.volume2 * smoothStep (((i : ℚ) - ((t2s : ℚ) - (cs : ℚ) / 2)) / (cs : ℚ)))) ∧
      crossfadeGains p cs t2s t2s = (p.volume1 * (1 / 2), p.volume2 * (1 / 2)) := by
  have hcsq : (0 : ℚ) < (cs : ℚ) := by exact_mod_cast hcs
  refine ⟨?_, ?_, ?_⟩
  · intro t h0 h1
    unfold smoothStep
    rw [min_eq_right h1, max_eq_right h0]
  · intro i h1 h2
    unfold crossfadeGains
    dsimp only
    rw [if_pos ⟨h1, h2⟩]
  · unfold crossfadeGains
    dsimp only
    rw [if_pos ⟨by linarith, by linarith⟩]
    have hpos : ((t2s : ℚ) - ((t2s : ℚ) - (cs : ℚ) / 2)) / (cs : ℚ) = 1 / 2 := by
      field_simp
      ring
    rw [hpos]
    have hss : smoothStep (1 / 2) = 1 / 2 := by
      unfold smoothStep
      norm_num
    rw [hss]
    norm_num

theorem claim_C6_witness :
    (0 : ℤ) < 10 ∧
      crossfadeGains paramsModel 10 1 1 =
        (paramsModel.volume1 * (1 / 2), paramsModel.volume2 * (1 / 2)) :=
  ⟨by norm_num, (claim_C6_crossfade_midpoint paramsModel 10 1 (by norm_num)).2.2⟩

/-! ### Length preservation through the mixing and effects stages -/

lemma eqGo_length (bg tg : ℚ) :
    ∀ (l : List ℚ) (ba ta : ℚ), (eqGo bg tg ba ta l).length = l.length := by
  intro l
  induction l with
  | nil => intro _ _; rfl
  | cons x xs ih =>
    intro ba ta
    unfold eqGo
    dsimp only [List.length_cons]
    rw [ih]

lemma applyEQ_length (data : List ℚ) (bb tb : ℚ) :
    (applyEQ data bb tb).length = data.length :=
  eqGo_length _ _ data 0 0

lemma applyCompression_length (data : List ℚ) (ratio : ℚ) :
    (applyCompression data ratio).length = data.length :=
  List.length_map _ _

lemma delayLineGo_length (wet fb : ℚ) :
    ∀ (data buf : List ℚ) (idx : ℕ), (delayLineGo wet fb buf idx data).length = data.length := by
  intro data
  induction data with
  | nil => intro _ _; rfl
  | cons x xs ih =>
    intro buf idx
    unfold delayLineGo
    dsimp only [List.length_cons]
    rw [ih]

lemma reverbLine_length (sr wet dt : ℚ) (data : List ℚ) :
    (reverbLine sr wet dt data).length = data.length :=
  delayLineGo_length _ _ data _ _

lemma reverb_foldl_length (sr wet : ℚ) (data : List ℚ) :
    ∀ (dts acc : List ℚ), acc.length = data.length →
      (dts.foldl (fun acc delayTime =>
          List.zipWith (· + ·) acc (reverbLine sr wet delayTime data)) acc).length =
        data.length := by
  intro dts
  induction dts with
  | nil => intro acc h; exact h
  | cons d rest ih =>
    intro acc h
    rw [List.foldl_cons]
    apply ih
    rw [List.length_zipWith, reverbLine_length, h, min_self]

lemma applyReverb_length (sr : ℚ) (data : List ℚ) (lvl : ℚ) :
    (applyReverb sr data lvl).length = data.length := by
  unfold applyReverb
  dsimp only
  rw [List.length_zipWith,
    reverb_foldl_length sr _ data _ _ (List.length_replicate _ _), min_self]

lemma normalize_length (data : List ℚ) : (AudioMixer.normalize data).length = data.length := by
  unfold AudioMixer.normalize
  dsimp only
  split
  · exact List.length_map _ _
  · rfl

lemma processChannel_length (sr : ℚ) (p : MixingParams) (data : List ℚ) :
    (processChannel sr p data).length = data.length := by
  unfold processChannel
  dsimp only
  rw [normalize_length]
  split
  · rw [applyReverb_length, applyCompression_length, applyEQ_length]
  · rw [applyCompression_length, applyEQ_length]

lemma mixTracks_lengths (p : MixingParams) (sr : ℚ) (b1 b2 : Buffer) (outLen : ℕ) :
    (mixTracks p sr b1 b2 outLen).1.length = outLen ∧
      (mixTracks p sr b1 b2 outLen).2.length = outLen := by
  unfold mixTracks
  dsimp only
  constructor <;> rw [List.length_map, List.length_range]

lemma createMashup_channels (m : JsMath) (sr : ℚ) (t1 t2 : Buffer) (p : MixingParams) :
    (createMashup m sr t1 t2 p).channels =
      [processChannel sr p
        (mixTracks p sr (timeStretch m t1 (p.tempo / (detectBeats m t1).tempo))
          (timeStretch m t2 (p.tempo / (detectBeats m t2).tempo))
          (createMashup m sr t1 t2 p).length).1,
       processChannel sr p
        (mixTracks p sr (timeStretch m t1 (p.tempo / (detectBeats m t1).tempo))
          (timeStretch m t2 (p.tempo / (detectBeats m t2).tempo))
          (createMashup m sr t1 t2 p).length).2] := rfl

lemma createMashup_length_raw (m : JsMath) (sr : ℚ) (t1 t2 : Buffer) (p : MixingParams) :
    (createMashup m sr t1 t2 p).length =
      ((max (timeStretch m t1 (p.tempo / (detectBeats m t1).tempo)).length
            (timeStretch m t2 (p.tempo / (detectBeats m t2).tempo)).length : ℤ) +
        ⌊p.crossfadeTime * sr⌋).toNat := rfl

lemma createMashup_length_eq (m : JsMath) (sr : ℚ) (t1 t2 : Buffer) (p : MixingParams)
    (hct : 0 ≤ p.crossfadeTime) (hsr : 0 ≤ sr) :
    (createMashup m sr t1 t2 p).length =
      max (timeStretch m t1 (p.tempo / (detectBeats m t1).tempo)).length
          (timeStretch m t2 (p.tempo / (detectBeats m t2).tempo)).length +
        (⌊p.crossfadeTime * sr⌋).toNat := by
  rw [createMashup_length_raw]
  have hx : 0 ≤ ⌊p.crossfadeTime * sr⌋ := Int.floor_nonneg.mpr (mul_nonneg hct hsr)
  generalize hg : ⌊p.crossfadeTime * sr⌋ = f at hx ⊢
  rw [← Nat.cast_max]
  generalize max (timeStretch m t1 (p.tempo / (detectBeats m t1).tempo)).length
      (timeStretch m t2 (p.tempo / (detectBeats m t2).tempo)).length = c
  omega

lemma createMashup_channel_lengths (m : JsMath) (sr : ℚ) (t1 t2 : Buffer) (p : MixingParams) :
    ∀ c ∈ (createMashup m sr t1 t2 p).channels,
      c.length = (createMashup m sr t1 t2 p).length := by
  intro c hc
  rw [createMashup_channels] at hc
  have hlen := mixTracks_lengths p sr
    (timeStretch m t1 (p.tempo / (detectBeats m t1).tempo))
    (timeStretch m t2 (p.tempo / (detectBeats m t2).tempo))
    (createMashup m sr t1 t2 p).length
  rcases List.mem_pair.mp hc with hc | hc
  · rw [hc, processChannel_length, hlen.1]
  · rw [hc, processChannel_length, hlen.2]

/-! ### Mashup output layout -/

/-- C7: the mashup buffer holds max(stretched lengths) + crossfade samples
frames in the length field and in both channels, and track 2 is scheduled at
floor(0.3 * stretched length of track 1): its sample k is the one read at
timeline index track2Start + k. -/
theorem claim_C7_output_length_and_offset (m : JsMath) (sr : ℚ) (t1 t2 : Buffer)
    (p : MixingParams) (hct : 0 ≤ p.crossfadeTime) (hsr : 0 ≤ sr) :
    (createMashup m sr t1 t2 p).length =
        max (timeStretch m t1 (p.tempo / (detectBeats m t1).tempo)).length
            (timeStretch m t2 (p.tempo / (detectBeats m t2).tempo)).length +
          (⌊p.crossfadeTime * sr⌋).toNat ∧
      (∀ c ∈ (createMashup m sr t1 t2 p).channels,
        c.length = (createMashup m sr t1 t2 p).length) ∧
      track2StartOfLen (timeStretch m t1 (p.tempo / (detectBeats m t1).tempo)).length =
        (⌊((timeStretch m t1 (p.tempo / (detectBeats m t1).tempo)).length : ℚ) *
          (3 / 10)⌋).toNat ∧
      (∀ (t2Data : List ℚ) (t2s k : ℕ), k < t2Data.length →
        sampleTrack2 t2Data t2s (t2s + k) = t2Data.getD k 0) := by
  refine ⟨createMashup_length_eq m sr t1 t2 p hct hsr,
    createMashup_channel_lengths m sr t1 t2 p, rfl, ?_⟩
  intro t2Data t2s k hk
  unfold sampleTrack2
  rw [if_pos ⟨Nat.le_add_right _ _, by omega⟩]
  congr 1
  omega

theorem claim_C7_witness :
    (0 : ℚ) ≤ paramsModel.crossfadeTime ∧ (0 : ℚ) ≤ 10 ∧
      (createMashup jsMathModel 10 trackA trackB paramsModel).length =
        max (timeStretch jsMathModel trackA
              (paramsModel.tempo / (detectBeats jsMathModel trackA).tempo)).length
            (timeStretch jsMathModel trackB
              (paramsModel.tempo / (detectBeats jsMathModel trackB).tempo)).length +
          (⌊paramsModel.crossfadeTime * 10⌋).toNat :=
  ⟨by norm_num [paramsModel], by norm_num,
   (claim_C7_output_length_and_offset jsMathModel 10 trackA trackB paramsModel
      (by norm_num [paramsModel]) (by norm_num)).1⟩

/-! ### createMashup performs no input validation -/

lemma range_two : List.range 2 = [0, 1] := by decide

lemma timeStretch_noop (m : JsMath) (b : Buffer) (f : ℚ) (h : |f - 1| < 1 / 20) :
    timeStretch m b f = b := by
  unfold timeStretch
  rw [if_pos h]

lemma tempo_A1 : (detectBeats jsMathModel trackA1).tempo = 120 / 60 := rfl

lemma tempo_B1 : (detectBeats jsMathModel trackB1).tempo = 120 / 60 := rfl

lemma tempo_B1p : (detectBeats jsMathModel trackB1').tempo = 120 / 60 := rfl

lemma stretch_A1 :
    timeStretch jsMathModel trackA1
      (paramsModel.tempo / (detectBeats jsMathModel trackA1).tempo) = trackA1 := by
  rw [tempo_A1]
  exact timeStretch_noop _ _ _ (by norm_num [paramsModel])

lemma stretch_B1 :
    timeStretch jsMathModel trackB1
      (paramsModel.tempo / (detectBeats jsMathModel trackB1).tempo) = trackB1 := by
  rw [tempo_B1]
  exact timeStretch_noop _ _ _ (by norm_num [paramsModel])

lemma stretch_B1p :
    timeStretch jsMathModel trackB1'
      (paramsModel.tempo / (detectBeats jsMathModel trackB1').tempo) = trackB1' := by
  rw [tempo_B1p]
  exact timeStretch_noop _ _ _ (by norm_num [paramsModel])

lemma len_small : (createMashup jsMathModel 1 trackA1 trackB1 paramsModel).length = 2 := by
  rw [createMashup_length_raw, stretch_A1, stretch_B1]
  norm_num [trackA1, trackB1, paramsModel, Int.floor_one]
  decide

lemma len_small' : (createMashup jsMathModel 1 trackA1 trackB1' paramsModel).length = 2 := by
  rw [createMashup_length_raw, stretch_A1, stretch_B1p]
  norm_num [trackA1, trackB1', paramsModel, Int.floor_one]
  decide

lemma chan_small :
    (createMashup jsMathModel 1 trackA1 trackB1 paramsModel).getChannelData 0 =
      processChannel 1 paramsModel (mixTracks paramsModel 1 trackA1 trackB1 2).1 := by
  have h : (createMashup jsMathModel 1 trackA1 trackB1 paramsModel).getChannelData 0 =
      processChannel 1 paramsModel
        (mixTracks paramsModel 1
          (timeStretch jsMathModel trackA1
            (paramsModel.tempo / (detectBeats jsMathModel trackA1).tempo))
          (timeStretch jsMathModel trackB1
            (paramsModel.tempo / (detectBeats jsMathModel trackB1).tempo))
          (createMashup jsMathModel 1 trackA1 trackB1 paramsModel).length).1 := rfl
  rw [h, stretch_A1, stretch_B1, len_small]

lemma chan_small' :
    (createMashup jsMathModel 1 trackA1 trackB1' paramsModel).getChannelData 0 =
      processChannel 1 paramsModel (mixTracks paramsModel 1 trackA1 trackB1' 2).1 := by
  have h : (createMashup jsMathModel 1 trackA1 trackB1' paramsModel).getChannelData 0 =
      processChannel 1 paramsModel
        (mixTracks paramsModel 1
          (timeStretch jsMathModel trackA1
            (paramsModel.tempo / (detectBeats jsMathModel trackA1).tempo))
          (timeStretch jsMathModel trackB1'
            (paramsModel.tempo / (detectBeats jsMathModel trackB1').tempo))
          (createMashup jsMathModel 1 trackA1 trackB1' paramsModel).length).1 := rfl
  rw [h, stretch_A1, stretch_B1p, len_small']

lemma mix_small : (mixTracks paramsModel 1 trackA1 trackB1 2).1 = [0, 0] := by
  unfold mixTracks
  dsimp only
  rw [range_two]
  norm_num [mixSamplePair, sampleTrack2, crossfadeGains, smoothStep, track2StartOfLen,
    Buffer.getChannelData, trackA1, trackB1, paramsModel, Int.floor_one]

lemma mix_small' : (mixTracks paramsModel 1 trackA1 trackB1' 2).1 = [7 / 20, 0] := by
  unfold mixTracks
  dsimp only
  rw [range_two]
  norm_num [mixSamplePair, sampleTrack2, crossfadeGains, smoothStep, track2StartOfLen,
    Buffer.getChannelData, trackA1, trackB1', paramsModel, Int.floor_one]

lemma pc_small : processChannel 1 paramsModel [0, 0] = [0, 0] := by
  norm_num [processChannel, applyEQ, eqGo, applyCompression, AudioMixer.normalize,
    peakAmplitude, paramsModel, List.foldl, abs]

lemma pc_small' : processChannel 1 paramsModel [7 / 20, 0] = [273 / 1250, 0] := by
  norm_num [processChannel, applyEQ, eqGo, applyCompression, AudioMixer.normalize,
    peakAmplitude, paramsModel, List.foldl, abs]

lemma mashup_small_silent_sample :
    ((createMashup jsMathModel 1 trackA1 trackB1 paramsModel).getChannelData 0).getD 0 0 = 0 := by
  rw [chan_small, mix_small, pc_small]
  rfl

lemma mashup_small_pulse_sample :
    ((createMashup jsMathModel 1 trackA1 trackB1' paramsModel).getChannelData 0).getD 0 0 =
      273 / 1250 := by
  rw [chan_small', mix_small', pc_small']
  rfl

/-- C1 counterexample: two tracks with mismatched sample rates are processed
anyway — the output even depends on the mismatched track's samples, so the
pipeline stages do run and no InputError is surfaced (the source defines no
error path at all). -/
theorem claim_C1_counterexample :
    trackA1.sampleRate ≠ trackB1.sampleRate ∧
      trackB1.sampleRate = trackB1'.sampleRate ∧
      trackB1.channels.length = trackB1'.channels.length ∧
      createMashup jsMathModel 1 trackA1 trackB1 paramsModel ≠
        createMashup jsMathModel 1 trackA1 trackB1' paramsModel := by
  refine ⟨by norm_num [trackA1, trackB1], rfl, rfl, ?_⟩
  intro h
  have h0 : ((createMashup jsMathModel 1 trackA1 trackB1 paramsModel).getChannelData 0).getD 0 0 =
      ((createMashup jsMathModel 1 trackA1 trackB1' paramsModel).getChannelData 0).getD 0 0 := by
    rw [h]
  rw [mashup_small_silent_sample, mashup_small_pulse_sample] at h0
  norm_num at h0

/-- C1 (amended): createMashup never surfaces an error; even with mismatched
sample rates it runs the whole pipeline and yields the stereo mix of the
documented shape. -/
theorem claim_C1_no_input_validation (m : JsMath) (sr : ℚ) (t1 t2 : Buffer)
    (p : MixingParams) (hmm : t1.sampleRate ≠ t2.sampleRate)
    (hct : 0 ≤ p.crossfadeTime) (hsr : 0 ≤ sr) :
    (createMashup m sr t1 t2 p).channels.length = 2 ∧
      (createMashup m sr t1 t2 p).length =
        max (timeStretch m t1 (p.tempo / (detectBeats m t1).tempo)).length
            (timeStretch m t2 (p.tempo / (detectBeats m t2).tempo)).length +
          (⌊p.crossfadeTime * sr⌋).toNat := by
  constructor
  · rw [createMashup_channels]
    rfl
  · exact createMashup_length_eq m sr t1 t2 p hct hsr

/-! ### Normalizer contract -/

lemma foldl_max_abs_scale (c : ℚ) (hc : 0 ≤ c) :
    ∀ (l : List ℚ) (a : ℚ), 0 ≤ a →
      ((l.map (fun x => x * c)).foldl (fun mx x => max mx |x|) (a * c)) =
        (l.foldl (fun mx x => max mx |x|) a) * c := by
  intro l
  induction l with
  | nil => intro a _; rfl
  | cons x xs ih =>
    intro a ha
    simp only [List.map_cons, List.foldl_cons]
    rw [abs_mul, abs_of_nonneg hc, ← max_mul_of_nonneg _ _ hc]
    exact ih (max a |x|) (le_trans ha (le_max_left _ _))

lemma peakAmplitude_map_scale (data : List ℚ) (c : ℚ) (hc : 0 ≤ c) :
    peakAmplitude (data.map (fun x => x * c)) = peakAmplitude data * c := by
  unfold peakAmplitude
  calc (data.map (fun x => x * c)).foldl (fun mx x => max mx |x|) 0
      = (data.map (fun x => x * c)).foldl (fun mx x => max mx |x|) (0 * c) := by rw [zero_mul]
    _ = (data.foldl (fun mx x => max mx |x|) 0) * c := foldl_max_abs_scale c hc data 0 le_rfl

/-- C8: normalize computes the peak absolute amplitude; when it exceeds 1 the
buffer is scaled by 0.95 / peak so the new peak is exactly 0.95 (hence at
most 0.95 plus any rounding error), and when the peak is at most 1 the data
is returned unchanged. -/
theorem claim_C8_normalizer (data : List ℚ) :
    (peakAmplitude data ≤ 1 → AudioMixer.normalize data = data) ∧
      (1 < peakAmplitude data →
        AudioMixer.normalize data =
            data.map (fun x => x * ((19 / 20) / peakAmplitude data)) ∧
          peakAmplitude (AudioMixer.normalize data) ≤ 19 / 20) := by
  constructor
  · intro h
    unfold AudioMixer.normalize
    dsimp only
    rw [if_neg (not_lt.mpr h)]
  · intro h
    have hpos : 0 < peakAmplitude data := lt_trans one_pos h
    have hmap : AudioMixer.normalize data =
        data.map (fun x => x * ((19 / 20) / peakAmplitude data)) := by
      unfold AudioMixer.normalize
      dsimp only
      rw [if_pos h]
    refine ⟨hmap, ?_⟩
    rw [hmap, peakAmplitude_map_scale data _ (by positivity)]
    rw [mul_div_assoc']
    rw [mul_comm, mul_div_assoc, div_self (ne_of_gt hpos), mul_one]

theorem claim_C8_witness :
    1 < peakAmplitude [2, -1 / 2] ∧
      peakAmplitude (AudioMixer.normalize [2, -1 / 2]) ≤ 19 / 20 := by
  have h1 : 1 < peakAmplitude [2, -1 / 2] := by
    norm_num [peakAmplitude, List.foldl, abs]
  exact ⟨h1, ((claim_C8_normalizer [2, -1 / 2]).2 h1).2⟩


/-! ### PCM serialization round trip -/

lemma getD_map_range {α : Type} (f : ℕ → α) (n i : ℕ) (d : α) (h : i < n) :
    ((List.range n).map f).getD i d = f i := by
  rw [List.getD_eq_getElem _ _ (by rw [List.length_map, List.length_range]; exact h)]
  simp

lemma flatten_chunks_length (nc : ℕ) :
    ∀ (chunks : List (List ℤ)), (∀ c ∈ chunks, c.length = nc) →
      chunks.flatten.length = chunks.length * nc := by
  intro chunks
  induction chunks with
  | nil => intro _; simp
  | cons c rest ih =>
    intro h
    rw [List.flatten_cons, List.length_append, ih (fun c' hc' => h c' (by simp [hc'])),
      h c (by simp), List.length_cons, Nat.succ_mul]
    omega

lemma flatten_chunks_getD (nc : ℕ) :
    ∀ (chunks : List (List ℤ)), (∀ c ∈ chunks, c.length = nc) →
      ∀ (i ch : ℕ), i < chunks.length → ch < nc →
        chunks.flatten.getD (i * nc + ch) 0 = (chunks.getD i []).getD ch 0 := by
  intro chunks
  induction chunks with
  | nil => intro _ i ch hi _; exact absurd hi (Nat.not_lt_zero i)
  | cons c rest ih =>
    intro h i ch hi hch
    rw [List.flatten_cons]
    cases i with
    | zero =>
      rw [Nat.zero_mul, Nat.zero_add]
      rw [List.getD_append _ _ _ _ (by rw [h c (by simp)]; exact hch)]
      rfl
    | succ i =>
      have hc : c.length = nc := h c (by simp)
      have hsplit : (i + 1) * nc + ch = c.length + (i * nc + ch) := by rw [hc]; ring
      rw [hsplit, List.getD_append_right _ _ _ _ (by omega)]
      have harith : c.length + (i * nc + ch) - c.length = i * nc + ch := by omega
      rw [harith]
      exact ih (fun c' hc' => h c' (by simp [hc'])) i ch (by simpa using hi) hch

lemma encodeSamples_chunks_lengths (b : Buffer) :
    ∀ c ∈ (List.range b.length).map (fun i =>
        (List.range b.numberOfChannels).map (fun ch =>
          encodeSample ((b.getChannelData ch).getD i 0))),
      c.length = b.numberOfChannels := by
  intro c hc
  obtain ⟨i, _, rfl⟩ := List.mem_map.mp hc
  rw [List.length_map, List.length_range]

lemma encodeSamples_length (b : Buffer) :
    (encodeSamples b).length = b.length * b.numberOfChannels := by
  unfold encodeSamples
  rw [flatten_chunks_length b.numberOfChannels _ (encodeSamples_chunks_lengths b),
    List.length_map, List.length_range]

lemma encodeSamples_getD (b : Buffer) (i ch : ℕ) (hi : i < b.length)
    (hch : ch < b.numberOfChannels) :
    (encodeSamples b).getD (i * b.numberOfChannels + ch) 0 =
      encodeSample ((b.getChannelData ch).getD i 0) := by
  unfold encodeSamples
  rw [flatten_chunks_getD b.numberOfChannels _ (encodeSamples_chunks_lengths b) i ch
    (by rw [List.length_map, List.length_range]; exact hi) hch]
  rw [getD_map_range _ _ _ _ hi, getD_map_range _ _ _ _ hch]

lemma truncQ_intCast (v : ℤ) : truncQ (v : ℚ) = v := by
  unfold truncQ
  split
  · exact Int.floor_intCast v
  · exact Int.ceil_intCast v

lemma truncQ_err (y : ℚ) : |((truncQ y : ℚ)) - y| < 1 := by
  unfold truncQ
  split
  next h =>
    have h1 := Int.floor_le y
    have h2 := Int.sub_one_lt_floor y
    rw [abs_lt]
    constructor <;> [linarith; linarith]
  next h =>
    have h1 := Int.le_ceil y
    have h2 := Int.ceil_lt_add_one y
    rw [abs_lt]
    constructor <;> [linarith; linarith]

lemma clampUnit_bounds (x : ℚ) : -1 ≤ clampUnit x ∧ clampUnit x ≤ 1 :=
  ⟨le_max_left _ _, max_le (by norm_num) (min_le_left _ _)⟩

lemma clampUnit_of_abs_le {x : ℚ} (h : |x| ≤ 1) : clampUnit x = x := by
  unfold clampUnit
  rw [abs_le] at h
  rw [min_eq_right h.2, max_eq_right h.1]

lemma encodeSample_bounds (x : ℚ) : |encodeSample x| ≤ 32767 := by
  have hc := clampUnit_bounds x
  have hub : clampUnit x * 32767 ≤ 32767 := by nlinarith [hc.2]
  have hlb : (-32767 : ℚ) ≤ clampUnit x * 32767 := by nlinarith [hc.1]
  unfold encodeSample truncQ
  split
  next h =>
    rw [abs_of_nonneg (Int.floor_nonneg.mpr h)]
    have hf : ⌊clampUnit x * 32767⌋ ≤ ⌊(32767 : ℚ)⌋ := Int.floor_le_floor hub
    have : ⌊(32767 : ℚ)⌋ = 32767 := by
      rw [show ((32767 : ℚ)) = ((32767 : ℤ) : ℚ) by norm_num, Int.floor_intCast]
    omega
  next h =>
    have hcl1 : ⌈clampUnit x * 32767⌉ ≤ 0 := by
      calc ⌈clampUnit x * 32767⌉ ≤ ⌈(0 : ℚ)⌉ := Int.ceil_le_ceil (le_of_lt (not_le.mp h))
        _ = 0 := Int.ceil_zero
    have hcl2 : (-32767 : ℤ) ≤ ⌈clampUnit x * 32767⌉ := by
      calc (-32767 : ℤ) = ⌈((-32767 : ℤ) : ℚ)⌉ := (Int.ceil_intCast _).symm
        _ ≤ ⌈clampUnit x * 32767⌉ := Int.ceil_le_ceil (by exact_mod_cast hlb)
    rw [abs_of_nonpos hcl1]
    omega

lemma encodeSample_roundtrip (v : ℤ) (hv : |v| ≤ 32767) :
    encodeSample ((v : ℚ) / 32767) = v := by
  unfold encodeSample
  have habs : |((v : ℚ)) / 32767| ≤ 1 := by
    rw [abs_div, abs_of_pos (by norm_num : (0 : ℚ) < 32767), div_le_one (by norm_num)]
    exact_mod_cast hv
  rw [clampUnit_of_abs_le habs, div_mul_cancel₀ _ (by norm_num : (32767 : ℚ) ≠ 0),
    truncQ_intCast]

lemma encodeSamples_bounds (b : Buffer) : ∀ v ∈ encodeSamples b, |v| ≤ 32767 := by
  intro v hv
  unfold encodeSamples at hv
  obtain ⟨c, hc, hvc⟩ := List.mem_flatten.mp hv
  obtain ⟨i, _, rfl⟩ := List.mem_map.mp hc
  obtain ⟨ch, _, rfl⟩ := List.mem_map.mp hvc
  exact encodeSample_bounds _

lemma decodeWav_length (sr : ℚ) (nc : ℕ) (ints : List ℤ) :
    (decodeWav sr nc ints).length = ints.length / nc := rfl

lemma decodeWav_sampleRate (sr : ℚ) (nc : ℕ) (ints : List ℤ) :
    (decodeWav sr nc ints).sampleRate = sr := rfl

lemma decodeWav_numberOfChannels (sr : ℚ) (nc : ℕ) (ints : List ℤ) :
    (decodeWav sr nc ints).numberOfChannels = nc := by
  unfold decodeWav Buffer.numberOfChannels
  dsimp only
  rw [List.length_map, List.length_range]

lemma decodeWav_channel_getD (sr : ℚ) (nc : ℕ) (ints : List ℤ) (ch i : ℕ)
    (hch : ch < nc) (hi : i < ints.length / nc) :
    ((decodeWav sr nc ints).getChannelData ch).getD i 0 =
      ((ints.getD (i * nc + ch) 0 : ℚ)) / 32767 := by
  unfold decodeWav Buffer.getChannelData
  dsimp only
  rw [getD_map_range _ _ _ _ hch, getD_map_range _ _ _ _ hi]

lemma encodeSamples_decode_encode (b : Buffer) (hnc : 0 < b.numberOfChannels) :
    encodeSamples (decodeWav b.sampleRate b.numberOfChannels (encodeSamples b)) =
      encodeSamples b := by
  have hlen : (encodeSamples b).length = b.length * b.numberOfChannels := encodeSamples_length b
  have hLd : (decodeWav b.sampleRate b.numberOfChannels (encodeSamples b)).length = b.length := by
    rw [decodeWav_length, hlen, Nat.mul_div_cancel _ hnc]
  have hNd : (decodeWav b.sampleRate b.numberOfChannels (encodeSamples b)).numberOfChannels =
      b.numberOfChannels := decodeWav_numberOfChannels _ _ _
  apply List.ext_getElem
  · rw [encodeSamples_length, hlen, hLd, hNd]
  · intro k h1 h2
    have hk : k < b.length * b.numberOfChannels := by
      rw [encodeSamples_length, hLd, hNd] at h1
      exact h1
    have hch : k % b.numberOfChannels < b.numberOfChannels := Nat.mod_lt _ hnc
    have hi : k / b.numberOfChannels < b.length :=
      Nat.div_lt_of_lt_mul (by rw [Nat.mul_comm b.numberOfChannels b.length]; exact hk)
    have hdecomp : (k / b.numberOfChannels) * b.numberOfChannels + k % b.numberOfChannels = k := by
      rw [Nat.mul_comm]
      exact Nat.div_add_mod k b.numberOfChannels
    rw [← List.getD_eq_getElem _ 0, ← List.getD_eq_getElem _ 0]
    calc (encodeSamples (decodeWav b.sampleRate b.numberOfChannels (encodeSamples b))).getD k 0
        = (encodeSamples (decodeWav b.sampleRate b.numberOfChannels (encodeSamples b))).getD
            ((k / b.numberOfChannels) * b.numberOfChannels + k % b.numberOfChannels) 0 := by
          rw [hdecomp]
      _ = encodeSample ((((encodeSamples b).getD
            ((k / b.numberOfChannels) * b.numberOfChannels + k % b.numberOfChannels) 0 : ℤ) : ℚ)
            / 32767) := by
          rw [show (encodeSamples (decodeWav b.sampleRate b.numberOfChannels
              (encodeSamples b))).getD
              ((k / b.numberOfChannels) * b.numberOfChannels + k % b.numberOfChannels) 0 =
            encodeSample (((decodeWav b.sampleRate b.numberOfChannels
              (encodeSamples b)).getChannelData (k % b.numberOfChannels)).getD
              (k / b.numberOfChannels) 0) from by
            have := encodeSamples_getD (decodeWav b.sampleRate b.numberOfChannels
              (encodeSamples b)) (k / b.numberOfChannels) (k % b.numberOfChannels)
              (by rw [hLd]; exact hi) (by rw [hNd]; exact hch)
            rw [hNd] at this
            exact this]
          rw [decodeWav_channel_getD _ _ _ _ _ hch (by rw [hlen, Nat.mul_div_cancel _ hnc]; exact hi)]
      _ = (encodeSamples b).getD
            ((k / b.numberOfChannels) * b.numberOfChannels + k % b.numberOfChannels) 0 := by
          apply encodeSample_roundtrip
          have hmem : (encodeSamples b).getD
              ((k / b.numberOfChannels) * b.numberOfChannels + k % b.numberOfChannels) 0 ∈
              encodeSamples b := by
            rw [List.getD_eq_getElem _ 0 (by rw [hdecomp, hlen]; exact hk)]
            exact List.getElem_mem _
          exact encodeSamples_bounds b _ hmem
      _ = (encodeSamples b).getD k 0 := by rw [hdecomp]

lemma wavHeader_decode (b : Buffer) (hnc : 0 < b.numberOfChannels) :
    wavHeader (decodeWav b.sampleRate b.numberOfChannels (encodeSamples b)) = wavHeader b := by
  unfold wavHeader
  rw [decodeWav_length, decodeWav_sampleRate, decodeWav_numberOfChannels,
    encodeSamples_length, Nat.mul_div_cancel _ hnc]

lemma encodeSample_error (x : ℚ) (hx : |x| ≤ 1) :
    |((encodeSample x : ℤ) : ℚ) / 32767 - x| ≤ 1 / 32767 := by
  unfold encodeSample
  rw [clampUnit_of_abs_le hx]
  have herr := truncQ_err (x * 32767)
  have heq : ((truncQ (x * 32767) : ℤ) : ℚ) / 32767 - x =
      (((truncQ (x * 32767) : ℤ) : ℚ) - x * 32767) / 32767 := by ring
  rw [heq, abs_div, abs_of_pos (by norm_num : (0 : ℚ) < 32767)]
  rw [div_le_div_iff₀ (by norm_num) (by norm_num)]
  nlinarith [herr]

/-- C9 (amended): the PCM encoder clamps each sample to [-1, 1] and scales by
32767 before truncation toward zero; decoding the produced samples and
re-encoding reproduces the identical byte sequence for every buffer; and the
per-sample round trip error is at most 1/32767 for samples already inside
[-1, 1] (samples outside that range are clamped, so they may deviate more). -/
theorem claim_C9_pcm_roundtrip (b : Buffer) (hnc : 0 < b.numberOfChannels) :
    (∀ x : ℚ, encodeSample x = truncQ (clampUnit x * 32767)) ∧
      audioBufferToWav (decodeWav b.sampleRate b.numberOfChannels (encodeSamples b)) =
        audioBufferToWav b ∧
      (∀ x : ℚ, |x| ≤ 1 → |((encodeSample x : ℤ) : ℚ) / 32767 - x| ≤ 1 / 32767) := by
  refine ⟨fun _ => rfl, ?_, fun x hx => encodeSample_error x hx⟩
  unfold audioBufferToWav
  rw [wavHeader_decode b hnc, encodeSamples_decode_encode b hnc]

/-- C9 counterexample: a buffer holding the out-of-range sample 2 decodes to
1 after encoding, an error of 1, far above the claimed 1/32767 bound, so the
round-trip bound cannot hold for every buffer. -/
theorem claim_C9_counterexample :
    1 / 32767 <
      |((decodeWav bufLoud.sampleRate 1 (encodeSamples bufLoud)).getChannelData 0).getD 0 0
        - 2| := by
  have h1 : encodeSamples bufLoud = [32767] := by
    have hx : encodeSample 2 = 32767 := by
      unfold encodeSample clampUnit truncQ
      norm_num
    norm_num [encodeSamples, Buffer.getChannelData, Buffer.numberOfChannels, bufLoud,
      List.range_succ, hx]
  rw [h1]
  have h2 : ((decodeWav bufLoud.sampleRate 1 [32767]).getChannelData 0).getD 0 0 =
      ((32767 : ℚ)) / 32767 := by
    rw [decodeWav_channel_getD _ _ _ _ _ (by norm_num) (by norm_num)]
    rfl
  rw [h2]
  norm_num

theorem claim_C9_witness :
    0 < bufLoud.numberOfChannels ∧
      audioBufferToWav (decodeWav bufLoud.sampleRate bufLoud.numberOfChannels
          (encodeSamples bufLoud)) =
        audioBufferToWav bufLoud :=
  ⟨by norm_num [bufLoud, Buffer.numberOfChannels],
   (claim_C9_pcm_roundtrip bufLoud
      (by norm_num [bufLoud, Buffer.numberOfChannels])).2.1⟩

theorem claim_C1_witness :
    trackA.sampleRate ≠ trackB.sampleRate ∧ (0 : ℚ) ≤ paramsModel.crossfadeTime ∧
      (0 : ℚ) ≤ 10 ∧
      (createMashup jsMathModel 10 trackA trackB paramsModel).channels.length = 2 :=
  ⟨by norm_num [trackA, trackB], by norm_num [paramsModel], by norm_num,
    (claim_C1_no_input_validation jsMathModel 10 trackA trackB paramsModel
      (by norm_num [trackA, trackB]) (by norm_num [paramsModel]) (by norm_num)).1⟩

/-! ### Only channel 0 feeds the pipeline -/

lemma replicate_getD_all_zero (L n j : ℕ) :
    ∀ x ∈ (List.replicate n (List.replicate L (0 : ℚ))).getD j [], x = 0 := by
  intro x hx
  rcases lt_or_le j n with hj | hj
  · rw [List.getD_eq_getElem _ _ (by rw [List.length_replicate]; exact hj),
      List.getElem_replicate] at hx
    exact List.eq_of_mem_replicate hx
  · rw [List.getD_eq_default _ _ (by rw [List.length_replicate]; exact hj)] at hx
    cases hx

lemma timeStretch_congr (m : JsMath) (b b' : Buffer) (factor : ℚ)
    (h0 : b.getChannelData 0 = b'.getChannelData 0) (hsr : b.sampleRate = b'.sampleRate)
    (hlen : b.length = b'.length) (hnc : b.channels.length = b'.channels.length) :
    (timeStretch m b factor).getChannelData 0 = (timeStretch m b' factor).getChannelData 0 ∧
      (timeStretch m b factor).length = (timeStretch m b' factor).length := by
  unfold timeStretch
  by_cases hf : |factor - 1| < 1 / 20
  · rw [if_pos hf, if_pos hf]
    exact ⟨h0, hlen⟩
  · rw [if_neg hf, if_neg hf]
    dsimp only
    rw [h0]
    exact ⟨rfl, rfl⟩

lemma detectBeats_congr (m : JsMath) (b b' : Buffer)
    (h0 : b.getChannelData 0 = b'.getChannelData 0) (hsr : b.sampleRate = b'.sampleRate) :
    detectBeats m b = detectBeats m b' := by
  unfold detectBeats
  rw [h0, hsr]

lemma mixTracks_congr (p : MixingParams) (sr : ℚ) (outLen : ℕ) (b1 b1' b2 b2' : Buffer)
    (h1 : b1.getChannelData 0 = b1'.getChannelData 0) (hl : b1.length = b1'.length)
    (h2 : b2.getChannelData 0 = b2'.getChannelData 0) :
    mixTracks p sr b1 b2 outLen = mixTracks p sr b1' b2' outLen := by
  unfold mixTracks
  rw [h1, h2, hl]

/-- C10: only channel 0 of each input track affects the mashup: a stretched
buffer carries silence in every channel beyond the first, detectBeats and
mixTracks read only channel 0 of their inputs, and changing any other channel
of either input track leaves createMashup's output unchanged. -/
theorem claim_C10_channel0_only (m : JsMath) :
    (∀ (b : Buffer) (factor : ℚ), 1 / 20 ≤ |factor - 1| →
      ∀ ch, 1 ≤ ch → ∀ x ∈ (timeStretch m b factor).getChannelData ch, x = 0) ∧
      (∀ (b b' : Buffer), b.getChannelData 0 = b'.getChannelData 0 →
        b.sampleRate = b'.sampleRate → detectBeats m b = detectBeats m b') ∧
      (∀ (p : MixingParams) (sr : ℚ) (outLen : ℕ) (b1 b1' b2 b2' : Buffer),
        b1.getChannelData 0 = b1'.getChannelData 0 → b1.length = b1'.length →
        b2.getChannelData 0 = b2'.getChannelData 0 →
        mixTracks p sr b1 b2 outLen = mixTracks p sr b1' b2' outLen) ∧
      (∀ (sr : ℚ) (p : MixingParams) (t1 t2 t2' : Buffer),
        t2.getChannelData 0 = t2'.getChannelData 0 → t2.sampleRate = t2'.sampleRate →
        t2.length = t2'.length → t2.channels.length = t2'.channels.length →
        createMashup m sr t1 t2 p = createMashup m sr t1 t2' p) ∧
      (∀ (sr : ℚ) (p : MixingParams) (t1 t1' t2 : Buffer),
        t1.getChannelData 0 = t1'.getChannelData 0 → t1.sampleRate = t1'.sampleRate →
        t1.length = t1'.length → t1.channels.length = t1'.channels.length →
        createMashup m sr t1 t2 p = createMashup m sr t1' t2 p) := by
  refine ⟨?_, detectBeats_congr m, mixTracks_congr, ?_, ?_⟩
  · intro b factor hf ch hch x hx
    rw [timeStretch_stretch_eq m b factor (not_lt.mpr hf)] at hx
    obtain ⟨k, rfl⟩ : ∃ k, ch = k + 1 := ⟨ch - 1, by omega⟩
    exact replicate_getD_all_zero _ _ k x hx
  · intro sr p t1 t2 t2' h0 hsr hlen hnc
    have hdb : detectBeats m t2 = detectBeats m t2' := detectBeats_congr m t2 t2' h0 hsr
    have hts := timeStretch_congr m t2 t2' (p.tempo / (detectBeats m t2').tempo) h0 hsr hlen hnc
    unfold createMashup
    dsimp only
    rw [hdb, hts.2, mixTracks_congr p sr _ _ _ _ _ rfl rfl hts.1]
  · intro sr p t1 t1' t2 h0 hsr hlen hnc
    have hdb : detectBeats m t1 = detectBeats m t1' := detectBeats_congr m t1 t1' h0 hsr
    have hts := timeStretch_congr m t1 t1' (p.tempo / (detectBeats m t1').tempo) h0 hsr hlen hnc
    unfold createMashup
    dsimp only
    rw [hdb, hts.2, mixTracks_congr p sr _ _ _ _ _ hts.1 hts.2 rfl]

theorem claim_C10_witness :
    (1 : ℚ) / 20 ≤ |(2 : ℚ) - 1| ∧
      (∀ x ∈ (timeStretch jsMathModel trackA 2).getChannelData 1, x = 0) ∧
      createMashup jsMathModel 10 trackA trackB2 paramsModel =
        createMashup jsMathModel 10 trackA trackB2' paramsModel :=
  ⟨by norm_num,
   (claim_C10_channel0_only jsMathModel).1 trackA 2 (by norm_num) 1 le_rfl,
   (claim_C10_channel0_only jsMathModel).2.2.2.1 10 paramsModel trackA trackB2 trackB2'
      rfl rfl rfl rfl⟩
